import Mathlib

/-!
Shallow embedding of the mcachego cache engine:
the open-addressing hashtable (package hashtable), the expiration FIFO and the
cache facade (mcache.go), and the fixed-capacity block pool (package unsafepool).

Machine integers are modelled as `Nat` bit patterns (`% 2^32` / `% 2^64` where
overflow matters); Go's int32 arithmetic is modelled by explicit wrap-around
helpers.  All definitions are translated from the Go source.
-/

set_option linter.dupNamespace false
set_option linter.unusedVariables false

namespace Mcache

/-- Signed view of a 32-bit pattern: Go int32 reinterpretation. -/
def toSigned32 (bits : Nat) : Int :=
  if bits % 2 ^ 32 < 2 ^ 31 then ((bits % 2 ^ 32 : Nat) : Int)
  else ((bits % 2 ^ 32 : Nat) : Int) - 2 ^ 32

/-- Go int32 addition of two 32-bit patterns (wrap modulo 2^32). -/
def add32 (a b : Nat) : Nat := (a + b) % 2 ^ 32

/-- Go int32 subtraction `a - b` of two 32-bit patterns, read back as a
signed value (this is what `i.expirationMs - now` computes in Cache.Evict). -/
def sub32 (a b : Nat) : Int :=
  toSigned32 ((a % 2 ^ 32 + (2 ^ 32 - b % 2 ^ 32)) % 2 ^ 32)

end Mcache

namespace Hashtable

/-- `const ITEM_IN_USE_MASK = (uint64(1) << 63)` -/
def ITEM_IN_USE_MASK : Nat := 1 <<< 63

/-- A slot of the open-addressing table (Go struct `item`:
`key uint64; value uintptr; hash uint64`). -/
structure Item where
  key : Nat
  value : Nat
  hash : Nat
deriving Repr, DecidableEq

/-- `item.reset()` zeroes all fields; a fresh table holds this in each slot. -/
def emptyItem : Item := ⟨0, 0, 0⟩

/-- Debug counters of the Go `Statistics` struct. -/
structure Statistics where
  store : Nat := 0
  storeSuccess : Nat := 0
  storeCollision : Nat := 0
  storeMatchingKey : Nat := 0
  maxCollisions : Nat := 0
  load : Nat := 0
  loadSuccess : Nat := 0
  loadSwap : Nat := 0
  loadFailed : Nat := 0
  findSuccess : Nat := 0
  findCollision : Nat := 0
  findFailed : Nat := 0
  remove : Nat := 0
  removeSuccess : Nat := 0
  removeFailed : Nat := 0
deriving Repr, DecidableEq

/-- The Go `Hashtable` struct.  `data` has `size + maxCollisions` slots so the
last probe chain can run to completion without wrapping.  `collisions` is the
running collision count (a Go `int`, may be decremented by Remove). -/
structure Hashtable where
  size : Nat
  maxCollisions : Nat
  collisions : Int
  statistics : Statistics
  data : List Item
deriving Repr, DecidableEq

/-- `func inUse(i *item) bool { return (i.hash & ITEM_IN_USE_MASK) != 0 }` -/
def inUse (i : Item) : Bool := i.hash &&& ITEM_IN_USE_MASK != 0

/-- `func isSameAndInUse(i *item, other *item) bool` -/
def isSameAndInUse (i other : Item) : Bool :=
  inUse i && i.hash == other.hash && i.key == other.key

/-- `func nextIndex(index int) int { return index + 1 }` (no wrap). -/
def nextIndex (index : Nat) : Nat := index + 1

/-- Each `moduloSize_P` selected by `getModuloSizeFunction` computes
`hash % size` for its prime `size`; this is the abstract contract of the
per-prime dispatch. -/
def moduloSize (size : Nat) (hash : Nat) : Nat := hash % size

/-- The fixed prime table `PrimeList` of hashtable/sizes.go. -/
def PrimeList : List Nat :=
  [2, 3, 5, 7, 11, 13, 17, 23, 29, 37, 47,
   59, 73, 97, 127, 151, 197, 251, 313, 397,
   499, 631, 797, 1009, 1259, 1597, 2011, 2539,
   3203, 4027, 5087, 6421, 8089, 10193, 12853, 16193,
   20399, 25717, 32401, 40823, 51437, 64811, 81649,
   102877, 129607, 163307, 205759, 259229, 326617,
   411527, 518509, 653267, 823117, 1037059, 1306601,
   1646237, 2074129, 2613229, 3292489, 4148279, 5226491,
   6584983, 8296553, 10453007, 13169977, 16593127, 20906033,
   26339969, 33186281, 41812097, 52679969, 66372617,
   83624237, 105359939, 132745199, 167248483, 210719881,
   265490441, 334496971, 421439783, 530980861, 668993977,
   842879579, 1061961721, 1337987929, 1685759167, 2123923447,
   2675975881, 3371518343, 4247846927, 5351951779, 6743036717,
   8495693897, 10703903591, 13486073473, 16991387857,
   21407807219, 26972146961, 33982775741, 42815614441,
   53944293929, 67965551447, 85631228929, 107888587883,
   135931102921, 171262457903, 215777175787, 271862205833,
   342524915839, 431554351609, 543724411781, 685049831731,
   863108703229, 1087448823553, 1370099663459, 1726217406467,
   2174897647073, 2740199326961, 3452434812973, 4349795294267,
   5480398654009, 6904869625999, 8699590588571, 10960797308051,
   13809739252051, 17399181177241, 21921594616111, 27619478504183,
   34798362354533, 43843189232363, 55238957008387, 69596724709081,
   87686378464759, 110477914016779, 139193449418173,
   175372756929481, 220955828033581, 278386898836457,
   350745513859007, 441911656067171, 556773797672909,
   701491027718027, 883823312134381, 1113547595345903,
   1402982055436147, 1767646624268779, 2227095190691797,
   2805964110872297, 3535293248537579, 4454190381383713,
   5611928221744609, 7070586497075177, 8908380762767489,
   11223856443489329, 14141172994150357, 17816761525534927,
   22447712886978529, 28282345988300791, 35633523051069991,
   44895425773957261, 56564691976601587, 71267046102139967,
   89790851547914507, 113129383953203213, 142534092204280003,
   179581703095829107, 226258767906406483, 285068184408560057,
   359163406191658253, 452517535812813007, 570136368817120201,
   718326812383316683, 905035071625626043, 1140272737634240411,
   1436653624766633509, 1810070143251252131, 2280545475268481167,
   2873307249533267101, 3620140286502504283, 4561090950536962147,
   5746614499066534157, 7240280573005008577, 9122181901073924329]

/-- `func GetPower2(N int) int` — round up to the next power of two by bit
smearing (64-bit Go int, modelled for the non-negative inputs the code uses). -/
def GetPower2 (n : Nat) : Nat :=
  let m := (n - 1) % 2 ^ 64
  let m := m ||| (m >>> 1)
  let m := m ||| (m >>> 2)
  let m := m ||| (m >>> 4)
  let m := m ||| (m >>> 8)
  let m := m ||| (m >>> 16)
  let m := m ||| (m >>> 32)
  m + 1

/-- `func GetPower2Sub1(N int) int { return GetPower2(N) - 1 }` -/
def GetPower2Sub1 (n : Nat) : Nat := GetPower2 n - 1

/-- `func getSize(N int) int` — smallest prime of `PrimeList` that is `≥ N`,
falling back to `GetPower2Sub1`. -/
def getSize (n : Nat) : Nat :=
  match PrimeList.find? (fun p => n ≤ p) with
  | some p => p
  | none => GetPower2Sub1 n

/-- The probe loop of `Hashtable.Store`, recursing on the remaining collision
budget (`fuel = maxCollisions - collisions`).  Returns the updated slot array,
statistics, collision counter and the success flag. -/
def storeLoop (maxCollisions : Nat) (look : Item) (value : Nat) :
    Nat → Nat → List Item → Statistics → Int → List Item × Statistics × Int × Bool
  | 0, _, data, stats, cols => (data, stats, cols, false)
  | fuel + 1, index, data, stats, cols =>
      let it := data.getD index emptyItem
      if inUse it then
        if isSameAndInUse it look then
          (data, { stats with storeMatchingKey := stats.storeMatchingKey + 1 }, cols, false)
        else
          storeLoop maxCollisions look value fuel (nextIndex index) data
            { stats with storeCollision := stats.storeCollision + 1 } cols
      else
        -- the Go loop counter at this point
        let col := maxCollisions - (fuel + 1)
        let stats := { stats with storeSuccess := stats.storeSuccess + 1 }
        let stats :=
          if 0 < col then
            if stats.maxCollisions < col then { stats with maxCollisions := col } else stats
          else stats
        let cols := if 0 < col then cols + 1 else cols
        (data.set index { key := look.key, value := value, hash := look.hash }, stats, cols, true)

/-- `func (h *Hashtable) Store(key uint64, hash uint64, value uintptr) bool` -/
def Hashtable.store (h : Hashtable) (key hash value : Nat) : Hashtable × Bool :=
  let stats := { h.statistics with store := h.statistics.store + 1 }
  let index := moduloSize h.size hash
  let hash := hash ||| ITEM_IN_USE_MASK
  let look : Item := { key := key, value := 0, hash := hash }
  let r := storeLoop h.maxCollisions look value h.maxCollisions index h.data stats h.collisions
  ({ h with data := r.1, statistics := r.2.1, collisions := r.2.2.1 }, r.2.2.2)

/-- The probe loop of `Hashtable.find`; mutates only statistics, returns the
matching slot index if any. -/
def findLoop (look : Item) : Nat → Nat → List Item → Statistics → Statistics × Option Nat
  | 0, _, _, stats => ({ stats with findFailed := stats.findFailed + 1 }, none)
  | fuel + 1, index, data, stats =>
      if isSameAndInUse (data.getD index emptyItem) look then
        ({ stats with findSuccess := stats.findSuccess + 1 }, some index)
      else
        findLoop look fuel (nextIndex index) data
          { stats with findCollision := stats.findCollision + 1 }

/-- `func (h *Hashtable) find(key uint64, hash uint64, index int) (int, bool)` -/
def Hashtable.find (h : Hashtable) (key hash : Nat) (index : Nat) :
    Statistics × Option Nat :=
  let hash := hash ||| ITEM_IN_USE_MASK
  let look : Item := { key := key, value := 0, hash := hash }
  findLoop look h.maxCollisions index h.data h.statistics

/-- `unsafe.Sizeof(item{})` on the 64-bit target: three 8-byte fields.  `Load`
returns the slot reference as a byte offset from the base of the slot array. -/
def itemSize : Nat := 24

/-- `func (h *Hashtable) Load(key uint64, hash uint64) (value uintptr, ok bool, ref uint32)` -/
def Hashtable.load (h : Hashtable) (key hash : Nat) : Hashtable × Nat × Bool × Nat :=
  let stats := { h.statistics with load := h.statistics.load + 1 }
  let index0 := moduloSize h.size hash
  let look : Item := { key := key, value := 0, hash := hash ||| ITEM_IN_USE_MASK }
  match findLoop look h.maxCollisions index0 h.data stats with
  | (stats0, some index) =>
      let stats := { stats0 with loadSuccess := stats0.loadSuccess + 1 }
      ({ h with statistics := stats }, (h.data.getD index emptyItem).value, true, itemSize * index)
  | (stats0, none) =>
      let stats := { stats0 with loadFailed := stats0.loadFailed + 1 }
      ({ h with statistics := stats }, 0, false, 0)

/-- `func (h *Hashtable) RemoveByRef(ref uint32)` — `ref` is a byte offset of a
slot; the slot is reset unconditionally. -/
def Hashtable.removeByRef (h : Hashtable) (ref : Nat) : Hashtable :=
  { h with data := h.data.set (ref / itemSize) emptyItem }

/-- `func (h *Hashtable) Remove(key uint64, hash uint64) (value uintptr, ok bool)` -/
def Hashtable.remove (h : Hashtable) (key hash : Nat) : Hashtable × Nat × Bool :=
  let stats := { h.statistics with remove := h.statistics.remove + 1 }
  let index0 := moduloSize h.size hash
  let look : Item := { key := key, value := 0, hash := hash ||| ITEM_IN_USE_MASK }
  match findLoop look h.maxCollisions index0 h.data stats with
  | (stats0, some index) =>
      let stats := { stats0 with removeSuccess := stats0.removeSuccess + 1 }
      let collisions := if index0 ≠ index then h.collisions - 1 else h.collisions
      ({ h with data := h.data.set index emptyItem, statistics := stats,
                collisions := collisions },
       (h.data.getD index emptyItem).value, true)
  | (stats0, none) =>
      let stats := { stats0 with removeFailed := stats0.removeFailed + 1 }
      ({ h with statistics := stats }, 0, false)

/-- `func New(size int, maxCollisions int) (h *Hashtable)` -/
def Hashtable.new (size maxCollisions : Nat) : Hashtable :=
  let size := getSize size
  let count := size + maxCollisions
  { size := size
    maxCollisions := maxCollisions
    collisions := 0
    statistics := {}
    data := List.replicate count emptyItem }

end Hashtable

namespace Mcache
open Hashtable (Hashtable)

/-- The expiration FIFO `itemFifo` of mcache.go: array of `size + 1` slots,
`head == tail` means empty. -/
structure ItemFifo where
  head : Nat
  tail : Nat
  data : List Nat
  size : Nat
deriving Repr, DecidableEq

/-- `func newFifo(size int) *itemFifo` -/
def newFifo (size : Nat) : ItemFifo :=
  { head := 0, tail := 0, data := List.replicate (size + 1) 0, size := size }

/-- `func (s *itemFifo) inc(v int) int` -/
def ItemFifo.inc (s : ItemFifo) (v : Nat) : Nat :=
  if v < s.size then v + 1 else 0

/-- `func (s *itemFifo) add(key uint64) (ok bool)` -/
def ItemFifo.add (s : ItemFifo) (key : Nat) : ItemFifo × Bool :=
  let newTail := s.inc s.tail
  if s.head ≠ newTail then
    ({ s with data := s.data.set s.tail key, tail := newTail }, true)
  else
    (s, false)

/-- `func (s *itemFifo) remove() (key uint64, ok bool)` -/
def ItemFifo.remove (s : ItemFifo) : ItemFifo × Nat × Bool :=
  let newHead := s.inc s.head
  if s.head ≠ s.tail then
    ({ s with head := newHead }, s.data.getD s.head 0, true)
  else
    (s, 0, false)

/-- `func (s *itemFifo) pick() (key uint64, ok bool)` -/
def ItemFifo.pick (s : ItemFifo) : Nat × Bool :=
  if s.head ≠ s.tail then (s.data.getD s.head 0, true) else (0, false)

/-- `func (s *itemFifo) Len() int`.  Result as `Int`, exactly the two branches
of the Go code. -/
def ItemFifo.len (s : ItemFifo) : Int :=
  if s.head ≤ s.tail then (s.tail : Int) - (s.head : Int)
  else (s.size : Int) - (s.head : Int) + (s.tail : Int)

/-- Cache statistics (mcache.go `Statistics`). -/
structure CacheStatistics where
  evictCalled : Nat := 0
  evictExpired : Nat := 0
  evictForce : Nat := 0
  evictNotExpired : Nat := 0
  evictLookupFailed : Nat := 0
  evictPeekFailed : Nat := 0
  maxOccupancy : Nat := 0
deriving Repr, DecidableEq

/-- The cache configuration record. -/
structure Configuration where
  size : Nat
  shards : Nat
  ttl : Nat
  collisions : Nat
  loadFactor : Nat
deriving Repr, DecidableEq

/-- The `Cache` struct: an expiration FIFO, shards (each shard is one
hashtable; the RW mutex has no sequential content), a shard mask, statistics
and the configuration. -/
structure Cache where
  fifo : ItemFifo
  size : Nat
  shards : List Hashtable
  shardsMask : Nat
  statistics : CacheStatistics
  configuration : Configuration
deriving Repr, DecidableEq

/-- An empty hashtable used as the (never reached) default of shard lookups. -/
def defaultShard : Hashtable :=
  { size := 0, maxCollisions := 0, collisions := 0, statistics := {}, data := [] }

/-- An in-cache entry (mcache.go `item`): `expirationMs int32; o Object`
(`Object = uint32`).  Both fields are 32-bit patterns. -/
structure CacheItem where
  expirationMs : Nat
  o : Nat
deriving Repr, DecidableEq

/-- `iValue := *((*uintptr)(unsafe.Pointer(&i)))` on the 64-bit little-endian
target: the `expirationMs` field occupies the low 32 bits and `o` the high
32 bits of the word. -/
def CacheItem.pack (i : CacheItem) : Nat :=
  i.expirationMs % 2 ^ 32 + 2 ^ 32 * (i.o % 2 ^ 32)

/-- `i := *(*item)(unsafe.Pointer(&iValue))` — inverse reinterpretation. -/
def CacheItem.unpack (iValue : Nat) : CacheItem :=
  { expirationMs := iValue % 2 ^ 32, o := iValue / 2 ^ 32 % 2 ^ 32 }

/-- `func New(configuration Configuration) *Cache`.  `numCPU` stands for
`runtime.NumCPU()`, used only when `configuration.Shards == 0`. -/
def Cache.new (numCPU : Nat) (configuration : Configuration) : Cache :=
  let shards0 := if configuration.shards = 0 then 2 * numCPU else configuration.shards
  let shards0 := Hashtable.GetPower2 shards0
  let shardsMask := shards0 - 1
  let loadFactor := if configuration.loadFactor = 0 then 50 else configuration.loadFactor
  let collisions := if configuration.collisions = 0 then 64 else configuration.collisions
  let configuration :=
    { configuration with
        shards := shards0
        loadFactor := loadFactor
        collisions := collisions }
  let size := configuration.size * 100 / loadFactor
  let shardSize := size / shards0
  { fifo := newFifo size
    size := size
    shards := List.replicate shards0 (Hashtable.Hashtable.new shardSize 64)
    shardsMask := shardsMask
    statistics := {}
    configuration := configuration }

/-- `func (c *Cache) Store(key uint64, o Object, now TimeMs) bool`.
Note: the Go code discards the result of `shard.table.Store` and returns the
result of `c.fifo.add`. -/
def Cache.store (c : Cache) (key o now : Nat) : Cache × Bool :=
  let i : CacheItem := { o := o % 2 ^ 32, expirationMs := add32 now c.configuration.ttl }
  let iValue := i.pack
  let hash := key
  let shardIdx := hash &&& c.shardsMask
  let shard := c.shards.getD shardIdx defaultShard
  let tableRes := shard.store key hash iValue
  let fifoRes := c.fifo.add key
  let count := fifoRes.1.len
  let stats :=
    if c.statistics.maxOccupancy < count.toNat then
      { c.statistics with maxOccupancy := count.toNat }
    else c.statistics
  ({ c with shards := c.shards.set shardIdx tableRes.1, fifo := fifoRes.1,
            statistics := stats },
   fifoRes.2)

/-- `func (c *Cache) Load(key uint64) (o Object, ref ItemRef, ok bool)` -/
def Cache.load (c : Cache) (key : Nat) : Cache × Nat × Nat × Bool :=
  let hash := key
  let shardIdx := hash &&& c.shardsMask
  let shard := c.shards.getD shardIdx defaultShard
  let r := shard.load key hash
  let ref := r.2.2.2 ||| (shardIdx <<< 32)
  let i := CacheItem.unpack r.2.1
  ({ c with shards := c.shards.set shardIdx r.1 }, i.o, ref, r.2.2.1)

/-- `func (c *Cache) EvictByRef(ref ItemRef)` -/
def Cache.evictByRef (c : Cache) (ref : Nat) : Cache :=
  let shardIdx := (ref >>> 32) &&& (2 ^ 32 - 1)
  let hashtableRef := ref &&& (2 ^ 32 - 1)
  let shard := c.shards.getD shardIdx defaultShard
  { c with shards := c.shards.set shardIdx (shard.removeByRef hashtableRef) }

/-- `func (c *Cache) Evict(now TimeMs, force bool) (o Object, expired bool)` -/
def Cache.evict (c : Cache) (now : Nat) (force : Bool) : Cache × Nat × Bool :=
  let stats := { c.statistics with evictCalled := c.statistics.evictCalled + 1 }
  let o : Nat := 0
  let expired := false
  match c.fifo.pick with
  | (key, true) =>
      let hash := key
      let shardIdx := hash &&& c.shardsMask
      let shard := c.shards.getD shardIdx defaultShard
      let r := shard.load key hash
      match r.2.2.1 with
      | true =>
          let i := CacheItem.unpack r.2.1
          let isExpired := decide (sub32 i.expirationMs now ≤ 0)
          if isExpired || force then
            let stats := { stats with evictExpired := stats.evictExpired + 1 }
            -- Go: `if !expired { c.statistics.EvictForce += 1 }`, where
            -- `expired` is the result variable, still false at this point
            let stats :=
              if !expired then { stats with evictForce := stats.evictForce + 1 } else stats
            let fifoRes := c.fifo.remove
            let shard2 := r.1.removeByRef r.2.2.2
            ({ c with fifo := fifoRes.1, shards := c.shards.set shardIdx shard2,
                      statistics := stats },
             i.o, true)
          else
            let stats := { stats with evictNotExpired := stats.evictNotExpired + 1 }
            ({ c with shards := c.shards.set shardIdx r.1, statistics := stats }, o, expired)
      | false =>
          let stats := { stats with evictLookupFailed := stats.evictLookupFailed + 1 }
          let fifoRes := c.fifo.remove
          ({ c with fifo := fifoRes.1, shards := c.shards.set shardIdx r.1,
                    statistics := stats },
           o, expired)
  | (_, false) =>
      let stats := { stats with evictPeekFailed := stats.evictPeekFailed + 1 }
      ({ c with statistics := stats }, o, expired)

end Mcache

namespace BlockPool

/-- Counters of the pool `Statistics` struct (package unsafepool). -/
structure PoolStatistics where
  alloc : Nat := 0
  allocLockCongested : Nat := 0
  free : Nat := 0
  freeBadAddress : Nat := 0
  freeLockCongested : Nat := 0
  minAvailability : Nat := 0
deriving Repr, DecidableEq

/-- The `Pool` struct: a free stack of block addresses over a contiguous
arena.  Addresses are modelled as `Nat`; the arena contents are irrelevant to
the pool logic.  `top` is a Go int32, modelled as `Int` so that the underflow
test of Alloc is faithful. -/
structure Pool where
  top : Int
  stack : List Nat
  objectSize : Nat
  objectCount : Nat
  maxAddr : Nat
  minAddr : Nat
  statistics : PoolStatistics
deriving Repr, DecidableEq

/-- `func (p *Pool) Reset()` — every block address back on the stack in arena
order, full availability, fresh statistics. -/
def Pool.reset (p : Pool) : Pool :=
  { p with
      stack := (List.range p.objectCount).map (fun i => p.minAddr + i * p.objectSize)
      top := (p.objectCount : Int)
      statistics := { minAvailability := p.objectCount } }

/-- `func New(objectType reflect.Type, objectCount int) (p *Pool)`.  `base` is
the address of `p.data[0]` chosen by the runtime allocator; `objectSize` is
`unsafe.Sizeof` of the stored type. -/
def Pool.new (base objectSize objectCount : Nat) : Pool :=
  Pool.reset
    { top := 0
      stack := List.replicate objectCount 0
      objectSize := objectSize
      objectCount := objectCount
      maxAddr := base + objectSize * (objectCount - 1)
      minAddr := base
      statistics := {} }

/-- `func (p *Pool) Availability() int { return int(p.top) }` -/
def Pool.availability (p : Pool) : Int := p.top

/-- `func (p *Pool) Alloc() (ptr unsafe.Pointer, ok bool)` (non-sync). -/
def Pool.alloc (p : Pool) : Pool × Nat × Bool :=
  let stats := { p.statistics with alloc := p.statistics.alloc + 1 }
  let top := p.top - 1
  if 0 ≤ top then
    let stats :=
      if top.toNat < stats.minAvailability then { stats with minAvailability := top.toNat }
      else stats
    ({ p with top := top, statistics := stats }, p.stack.getD top.toNat 0, true)
  else
    ({ p with statistics := stats }, 0, false)

/-- `func (p *Pool) Free(ptr unsafe.Pointer) bool` (non-sync).  The Go code
checks only that `ptr` lies inside the arena address range. -/
def Pool.free (p : Pool) (ptr : Nat) : Pool × Bool :=
  if ptr < p.minAddr ∨ p.maxAddr < ptr then
    ({ p with statistics :=
        { p.statistics with freeBadAddress := p.statistics.freeBadAddress + 1 } },
     false)
  else
    let stats := { p.statistics with free := p.statistics.free + 1 }
    ({ p with stack := p.stack.set p.top.toNat ptr, top := p.top + 1, statistics := stats },
     true)

/-- `func (p *Pool) Belongs(ptr unsafe.Pointer) bool` — range plus alignment. -/
def Pool.belongs (p : Pool) (ptr : Nat) : Bool :=
  decide (p.minAddr ≤ ptr) && decide (ptr ≤ p.maxAddr)
    && ((ptr - p.minAddr) % p.objectSize == 0)

end BlockPool

/-! ### Invariants, operation sequences, and concrete states -/

namespace Hashtable

/-- All in-use slots sit within the collision budget of their hash's home
index, with every slot of the probe chain before them in use, and carry the
IN-USE-tagged hash of their key. -/
def SlotsWF (size maxC : Nat) (hashf : Nat → Nat) (data : List Item) : Prop :=
  ∀ s, s < data.length → inUse (data.getD s emptyItem) = true →
    (data.getD s emptyItem).hash = hashf (data.getD s emptyItem).key ||| ITEM_IN_USE_MASK ∧
    moduloSize size (hashf (data.getD s emptyItem).key) ≤ s ∧
    s < moduloSize size (hashf (data.getD s emptyItem).key) + maxC ∧
    ∀ j, moduloSize size (hashf (data.getD s emptyItem).key) ≤ j → j < s →
      inUse (data.getD j emptyItem) = true

/-- No two in-use slots carry the same key. -/
def UniqueKeys (data : List Item) : Prop :=
  ∀ s t, s < data.length → t < data.length → s ≠ t →
    inUse (data.getD s emptyItem) = true → inUse (data.getD t emptyItem) = true →
    (data.getD s emptyItem).key ≠ (data.getD t emptyItem).key

/-- Fold a sequence of Store operations (each key presented with the hash
`hashf key`, as Cache.Store does with `hashf = id`) over a table. -/
def applyStores (hashf : Nat → Nat) (ops : List (Nat × Nat)) (h : Hashtable) : Hashtable :=
  ops.foldl (fun acc kv => (acc.store kv.1 (hashf kv.1) kv.2).1) h

/-- A table of size 2 (prime) with collision budget 4. -/
def testHt : Hashtable := Hashtable.new 2 4

def testHtDup : Hashtable :=
  ((((testHt.store 2 2 10).1.store 4 4 11).1.remove 2 2).1.store 4 4 12).1

end Hashtable

namespace Mcache

/-- The size-1 expiration ring after add(7), remove(), add(9): its array has
two slots, head = 1, tail = 0 — one element is stored (at slot 1). -/
def testFifoWrapped : ItemFifo :=
  ((((newFifo 1).add 7).1.remove.1).add 9).1

/-- Concrete configuration: capacity 2, one shard, TTL 10 ms, default
collision budget, load factor 100. -/
def testConfig : Configuration :=
  { size := 2, shards := 1, ttl := 10, collisions := 0, loadFactor := 100 }

def testCache : Cache := Cache.new 4 testConfig

def testCacheWith5 : Cache := (testCache.store 5 1 0).1

def testCacheOrphan : Cache := testCacheWith5.evictByRef (testCacheWith5.load 5).2.2.1

end Mcache

namespace BlockPool

/-- A concrete pool: arena base 100, block size 16, two blocks
(blocks at addresses 100 and 116, maxAddr = 116). -/
def testPool : Pool := Pool.new 100 16 2

/-- The pool after one allocation (block 116 handed out, top = 1). -/
def testPoolAfterAlloc : Pool := testPool.alloc.1

end BlockPool

/-! ### List access helper lemmas -/

theorem getD_set_self {α : Type} (l : List α) (i : Nat) (a d : α) (h : i < l.length) :
    (l.set i a).getD i d = a := by
  simp [List.getD_eq_getElem?_getD, List.getElem?_set_eq_of_lt _ h]

theorem getD_set_ne {α : Type} (l : List α) {i j : Nat} (a d : α) (h : i ≠ j) :
    (l.set i a).getD j d = l.getD j d := by
  simp [List.getD_eq_getElem?_getD, List.getElem?_set_ne h]

theorem set_getD_self {α : Type} (l : List α) (i : Nat) (d : α) (h : i < l.length) :
    l.set i (l.getD i d) = l := by
  have h1 : l.getD i d = l[i] := by
    simp [List.getD_eq_getElem?_getD, List.getElem?_eq_getElem h]
  rw [h1]
  apply List.ext_getElem?
  intro j
  by_cases hj : i = j
  · subst hj
    rw [List.getElem?_set_eq_of_lt _ h, List.getElem?_eq_getElem h]
  · rw [List.getElem?_set_ne hj]

theorem getD_replicate {α : Type} (n i : Nat) (a d : α) (h : i < n) :
    (List.replicate n a).getD i d = a := by
  simp [List.getD_eq_getElem?_getD, List.getElem?_replicate, h]

theorem getD_len_le {α : Type} (l : List α) (n : Nat) (d : α) (h : l.length ≤ n) :
    l.getD n d = d := by
  simp [List.getD_eq_getElem?_getD, List.getElem?_eq_none h]

namespace Hashtable

theorem storeLoop_fail (maxC : Nat) (look : Item) (v : Nat) :
    ∀ (fuel index : Nat) (data : List Item) (stats : Statistics) (cols : Int),
      (storeLoop maxC look v fuel index data stats cols).2.2.2 = false →
      (storeLoop maxC look v fuel index data stats cols).1 = data := by
  intro fuel
  induction fuel with
  | zero => intro index data stats cols _; rfl
  | succ fuel ih =>
      intro index data stats cols hfail
      simp only [storeLoop] at hfail ⊢
      by_cases h1 : inUse (data.getD index emptyItem) = true
      · rw [if_pos h1] at hfail ⊢
        by_cases h2 : isSameAndInUse (data.getD index emptyItem) look = true
        · rw [if_pos h2] at hfail ⊢
        · rw [if_neg h2] at hfail ⊢
          exact ih (nextIndex index) data _ cols hfail
      · rw [if_neg h1] at hfail
        simp at hfail

theorem storeLoop_success (maxC : Nat) (look : Item) (v : Nat) :
    ∀ (fuel index : Nat) (data : List Item) (stats : Statistics) (cols : Int),
      (storeLoop maxC look v fuel index data stats cols).2.2.2 = true →
      ∃ s, index ≤ s ∧ s < index + fuel ∧
        inUse (data.getD s emptyItem) = false ∧
        (storeLoop maxC look v fuel index data stats cols).1
          = data.set s { key := look.key, value := v, hash := look.hash } ∧
        ∀ j, index ≤ j → j < s →
          inUse (data.getD j emptyItem) = true ∧
          isSameAndInUse (data.getD j emptyItem) look = false := by
  intro fuel
  induction fuel with
  | zero => intro index data stats cols h; simp [storeLoop] at h
  | succ fuel ih =>
      intro index data stats cols hok
      simp only [storeLoop] at hok ⊢
      by_cases h1 : inUse (data.getD index emptyItem) = true
      · rw [if_pos h1] at hok ⊢
        by_cases h2 : isSameAndInUse (data.getD index emptyItem) look = true
        · rw [if_pos h2] at hok
          simp at hok
        · rw [if_neg h2] at hok ⊢
          obtain ⟨s, hs1, hs2, hs3, hs4, hs5⟩ := ih (nextIndex index) data _ cols hok
          simp only [nextIndex] at hs1 hs2
          refine ⟨s, by omega, by omega, hs3, hs4, ?_⟩
          intro j hj1 hj2
          by_cases hj : j = index
          · subst hj
            exact ⟨h1, by simpa using h2⟩
          · exact hs5 j (by simp only [nextIndex]; omega) hj2
      · rw [if_neg h1] at hok ⊢
        refine ⟨index, le_refl _, by omega, by simpa using h1, ?_, ?_⟩
        · rfl
        · intro j hj1 hj2
          omega

theorem findLoop_found (look : Item) :
    ∀ (fuel index s : Nat) (data : List Item) (stats : Statistics),
      index ≤ s → s < index + fuel →
      (∀ j, index ≤ j → j < s → isSameAndInUse (data.getD j emptyItem) look = false) →
      isSameAndInUse (data.getD s emptyItem) look = true →
      (findLoop look fuel index data stats).2 = some s := by
  intro fuel
  induction fuel with
  | zero => intro index s data stats h1 h2 _ _; omega
  | succ fuel ih =>
      intro index s data stats h1 h2 hpre hmatch
      simp only [findLoop]
      by_cases hcur : isSameAndInUse (data.getD index emptyItem) look = true
      · rw [if_pos hcur]
        by_cases he : index = s
        · simp [he]
        · have hfalse := hpre index (le_refl _) (by omega)
          rw [hfalse] at hcur
          simp at hcur
      · rw [if_neg hcur]
        have hne : index ≠ s := fun he => hcur (he ▸ hmatch)
        exact ih (nextIndex index) s data _ (by simp only [nextIndex]; omega)
          (by simp only [nextIndex]; omega)
          (fun j hj1 hj2 => hpre j (by simp only [nextIndex] at hj1; omega) hj2) hmatch

theorem findLoop_none (look : Item) :
    ∀ (fuel index : Nat) (data : List Item) (stats : Statistics),
      (∀ j, isSameAndInUse (data.getD j emptyItem) look = false) →
      (findLoop look fuel index data stats).2 = none := by
  intro fuel
  induction fuel with
  | zero => intro index data stats _; rfl
  | succ fuel ih =>
      intro index data stats habs
      simp only [findLoop]
      rw [if_neg (by rw [habs index]; exact Bool.false_ne_true)]
      exact ih _ data _ habs

theorem inUse_emptyItem : inUse emptyItem = false := by decide

theorem isSame_false_of_not (it look : Item)
    (h : ¬(inUse it = true ∧ it.key = look.key)) : isSameAndInUse it look = false := by
  cases hu : inUse it
  · simp [isSameAndInUse, hu]
  · have hk : it.key ≠ look.key := fun he => h ⟨hu, he⟩
    simp [isSameAndInUse, hu, hk]

theorem isSame_true_of (it look : Item) (h1 : inUse it = true)
    (h2 : it.hash = look.hash) (h3 : it.key = look.key) :
    isSameAndInUse it look = true := by
  simp [isSameAndInUse, h1, h2, h3]

theorem and_mask_ne_zero (hash : Nat) :
    (hash ||| ITEM_IN_USE_MASK) &&& ITEM_IN_USE_MASK ≠ 0 := by
  intro h0
  have ht : ((hash ||| ITEM_IN_USE_MASK) &&& ITEM_IN_USE_MASK).testBit 63 = true := by
    rw [Nat.testBit_and, Nat.testBit_or]
    have hbit : ITEM_IN_USE_MASK.testBit 63 = true := by decide
    rw [hbit]
    simp
  rw [h0] at ht
  simp at ht

theorem inUse_of_lor_mask (k v hash : Nat) :
    inUse { key := k, value := v, hash := hash ||| ITEM_IN_USE_MASK } = true := by
  simp [inUse, and_mask_ne_zero]

theorem load_value_of_find (h : Hashtable) (key hash : Nat) (s : Nat)
    (hfind : ∀ stats, (findLoop { key := key, value := 0, hash := hash ||| ITEM_IN_USE_MASK }
        h.maxCollisions (moduloSize h.size hash) h.data stats).2 = some s) :
    (h.load key hash).2.1 = (h.data.getD s emptyItem).value ∧
    (h.load key hash).2.2.1 = true := by
  simp only [Hashtable.load]
  cases hres : findLoop { key := key, value := 0, hash := hash ||| ITEM_IN_USE_MASK }
      h.maxCollisions (moduloSize h.size hash) h.data
      { h.statistics with load := h.statistics.load + 1 } with
  | mk st res =>
    have hr : res = some s := by rw [← hfind { h.statistics with load := h.statistics.load + 1 }, hres]
    subst hr
    simp

theorem store_then_load (h : Hashtable) (key hash v : Nat)
    (hlen : h.data.length = h.size + h.maxCollisions)
    (hsize : 0 < h.size)
    (hok : (h.store key hash v).2 = true) :
    ((h.store key hash v).1.load key hash).2.1 = v ∧
    ((h.store key hash v).1.load key hash).2.2.1 = true := by
  have hmod : moduloSize h.size hash < h.size := Nat.mod_lt _ hsize
  have hok' : (storeLoop h.maxCollisions
      { key := key, value := 0, hash := hash ||| ITEM_IN_USE_MASK } v h.maxCollisions
      (moduloSize h.size hash) h.data
      { h.statistics with store := h.statistics.store + 1 } h.collisions).2.2.2 = true := hok
  obtain ⟨s, hs1, hs2, hs3, hs4, hs5⟩ := storeLoop_success _ _ _ _ _ _ _ _ hok'
  have hslen : s < h.data.length := by rw [hlen]; omega
  have hdata : (h.store key hash v).1.data
      = h.data.set s { key := key, value := v, hash := hash ||| ITEM_IN_USE_MASK } := hs4
  have hfind : ∀ stats, (findLoop { key := key, value := 0, hash := hash ||| ITEM_IN_USE_MASK }
      (h.store key hash v).1.maxCollisions
      (moduloSize (h.store key hash v).1.size hash)
      (h.store key hash v).1.data stats).2 = some s := by
    intro stats
    rw [hdata]
    refine findLoop_found _ _ _ _ _ _ hs1 hs2 ?_ ?_
    · intro j hj1 hj2
      rw [getD_set_ne _ _ _ (by omega : s ≠ j)]
      exact (hs5 j hj1 hj2).2
    · rw [getD_set_self _ _ _ _ hslen]
      exact isSame_true_of _ _ (inUse_of_lor_mask _ _ _) rfl rfl
  have hload := load_value_of_find (h.store key hash v).1 key hash s hfind
  refine ⟨?_, hload.2⟩
  rw [hload.1, hdata, getD_set_self _ _ _ _ hslen]

/-- The slot array is untouched by Load (the chain-start swap is commented out
in the source); only statistics change. -/
theorem load_data_eq (h : Hashtable) (key hash : Nat) :
    (h.load key hash).1.data = h.data ∧
    (h.load key hash).1.size = h.size ∧
    (h.load key hash).1.maxCollisions = h.maxCollisions ∧
    (h.load key hash).1.collisions = h.collisions := by
  simp only [Hashtable.load]
  split <;> simp

/-- If no in-use slot carries the key, the probe fails and Load misses. -/
theorem load_fails_of_absent (h : Hashtable) (key hash : Nat)
    (habsent : ∀ j < h.data.length,
      ¬(inUse (h.data.getD j emptyItem) = true ∧ (h.data.getD j emptyItem).key = key)) :
    (h.load key hash).2 = (0, false, 0) := by
  have hnone : ∀ stats, (findLoop { key := key, value := 0, hash := hash ||| ITEM_IN_USE_MASK }
      h.maxCollisions (moduloSize h.size hash) h.data stats).2 = none := by
    intro stats
    apply findLoop_none
    intro j
    by_cases hj : j < h.data.length
    · exact isSame_false_of_not _ _ (habsent j hj)
    · rw [getD_len_le _ _ _ (by omega)]
      exact isSame_false_of_not _ _ (by simp [inUse_emptyItem])
  simp only [Hashtable.load]
  cases hres : findLoop { key := key, value := 0, hash := hash ||| ITEM_IN_USE_MASK }
      h.maxCollisions (moduloSize h.size hash) h.data
      { h.statistics with load := h.statistics.load + 1 } with
  | mk st res =>
    have hr : res = none := by
      rw [← hnone { h.statistics with load := h.statistics.load + 1 }, hres]
    subst hr
    simp

theorem store_size_eq (h : Hashtable) (key hash v : Nat) :
    (h.store key hash v).1.size = h.size := rfl

theorem store_maxCollisions_eq (h : Hashtable) (key hash v : Nat) :
    (h.store key hash v).1.maxCollisions = h.maxCollisions := rfl

theorem store_fail_data_eq (h : Hashtable) (key hash v : Nat)
    (hfail : (h.store key hash v).2 = false) :
    (h.store key hash v).1.data = h.data :=
  storeLoop_fail h.maxCollisions _ v h.maxCollisions (moduloSize h.size hash) h.data
    { h.statistics with store := h.statistics.store + 1 } h.collisions hfail

theorem store_success_spec (h : Hashtable) (key hash v : Nat)
    (hok : (h.store key hash v).2 = true) :
    ∃ s, moduloSize h.size hash ≤ s ∧ s < moduloSize h.size hash + h.maxCollisions ∧
      inUse (h.data.getD s emptyItem) = false ∧
      (h.store key hash v).1.data
        = h.data.set s { key := key, value := v, hash := hash ||| ITEM_IN_USE_MASK } ∧
      ∀ j, moduloSize h.size hash ≤ j → j < s →
        inUse (h.data.getD j emptyItem) = true ∧
        isSameAndInUse (h.data.getD j emptyItem)
          { key := key, value := 0, hash := hash ||| ITEM_IN_USE_MASK } = false := by
  have hok' : (storeLoop h.maxCollisions
      { key := key, value := 0, hash := hash ||| ITEM_IN_USE_MASK } v h.maxCollisions
      (moduloSize h.size hash) h.data
      { h.statistics with store := h.statistics.store + 1 } h.collisions).2.2.2 = true := hok
  obtain ⟨s, hs1, hs2, hs3, hs4, hs5⟩ := storeLoop_success _ _ _ _ _ _ _ _ hok'
  exact ⟨s, hs1, hs2, hs3, hs4, hs5⟩

theorem store_preserves_wf (hashf : Nat → Nat) (h : Hashtable) (key v : Nat)
    (hlen : h.data.length = h.size + h.maxCollisions)
    (hsize : 0 < h.size)
    (hwf : SlotsWF h.size h.maxCollisions hashf h.data)
    (huniq : UniqueKeys h.data) :
    (h.store key (hashf key) v).1.data.length = h.size + h.maxCollisions ∧
    SlotsWF h.size h.maxCollisions hashf (h.store key (hashf key) v).1.data ∧
    UniqueKeys (h.store key (hashf key) v).1.data := by
  cases hres : (h.store key (hashf key) v).2 with
  | false =>
      rw [store_fail_data_eq _ _ _ _ hres]
      exact ⟨hlen, hwf, huniq⟩
  | true =>
      obtain ⟨s, hs1, hs2, hfree, hdata, hpre⟩ := store_success_spec _ _ _ _ hres
      have hmod : moduloSize h.size (hashf key) < h.size := Nat.mod_lt _ hsize
      have hslen : s < h.data.length := by rw [hlen]; omega
      have hnokey : ∀ t, t < h.data.length → inUse (h.data.getD t emptyItem) = true →
          (h.data.getD t emptyItem).key ≠ key := by
        intro t ht hu he
        obtain ⟨hhash, h1, h2, hchain⟩ := hwf t ht hu
        rw [he] at hhash h1 hchain
        have hts : t ≠ s := by
          intro hts
          rw [hts] at hu
          rw [hu] at hfree
          exact absurd hfree (by simp)
        by_cases htlt : t < s
        · have hfalse := (hpre t h1 htlt).2
          rw [isSame_true_of _ _ hu hhash he] at hfalse
          exact absurd hfalse (by simp)
        · have hst : s < t := by omega
          have hsinuse := hchain s hs1 hst
          rw [hsinuse] at hfree
          exact absurd hfree (by simp)
      rw [hdata]
      refine ⟨by rw [List.length_set]; exact hlen, ?_, ?_⟩
      · -- SlotsWF is preserved
        intro t ht hu
        rw [List.length_set] at ht
        by_cases hts : t = s
        · subst hts
          rw [getD_set_self _ _ _ _ hslen] at hu ⊢
          refine ⟨rfl, hs1, hs2, ?_⟩
          intro j hj1 hj2
          rw [getD_set_ne _ _ _ (by omega : t ≠ j)]
          exact (hpre j hj1 hj2).1
        · rw [getD_set_ne _ _ _ (fun he => hts he.symm)] at hu ⊢
          obtain ⟨hhash, h1, h2, hchain⟩ := hwf t ht hu
          refine ⟨hhash, h1, h2, ?_⟩
          intro j hj1 hj2
          by_cases hjs : j = s
          · subst hjs
            rw [getD_set_self _ _ _ _ hslen]
            exact inUse_of_lor_mask _ _ _
          · rw [getD_set_ne _ _ _ (fun he => hjs he.symm)]
            exact hchain j hj1 hj2
      · -- UniqueKeys is preserved
        intro a b ha hb hab hua hub
        rw [List.length_set] at ha hb
        by_cases has : a = s
        · rw [has] at hua ⊢
          have hbs : s ≠ b := fun he => hab (has.trans he)
          rw [getD_set_self _ _ _ _ hslen]
          rw [getD_set_ne _ _ _ hbs] at hub ⊢
          exact fun he => hnokey b hb hub he.symm
        · by_cases hbs : b = s
          · rw [hbs] at hub ⊢
            have hsa : s ≠ a := fun he => has he.symm
            rw [getD_set_self _ _ _ _ hslen]
            rw [getD_set_ne _ _ _ hsa] at hua ⊢
            exact fun he => hnokey a ha hua he
          · rw [getD_set_ne _ _ _ (fun he => has he.symm)] at hua ⊢
            rw [getD_set_ne _ _ _ (fun he => hbs he.symm)] at hub ⊢
            exact huniq a b ha hb hab hua hub

theorem applyStores_wf (hashf : Nat → Nat) (ops : List (Nat × Nat)) :
    ∀ (h : Hashtable),
      h.data.length = h.size + h.maxCollisions → 0 < h.size →
      SlotsWF h.size h.maxCollisions hashf h.data → UniqueKeys h.data →
      (applyStores hashf ops h).size = h.size ∧
      (applyStores hashf ops h).maxCollisions = h.maxCollisions ∧
      (applyStores hashf ops h).data.length = h.size + h.maxCollisions ∧
      SlotsWF h.size h.maxCollisions hashf (applyStores hashf ops h).data ∧
      UniqueKeys (applyStores hashf ops h).data := by
  induction ops with
  | nil => intro h h1 h2 h3 h4; exact ⟨rfl, rfl, h1, h3, h4⟩
  | cons kv ops ih =>
      intro h h1 h2 h3 h4
      obtain ⟨hl, hwf, huniq⟩ := store_preserves_wf hashf h kv.1 kv.2 h1 h2 h3 h4
      have happ : applyStores hashf (kv :: ops) h
          = applyStores hashf ops (h.store kv.1 (hashf kv.1) kv.2).1 := rfl
      rw [happ]
      exact ih (h.store kv.1 (hashf kv.1) kv.2).1 hl h2 hwf huniq

end Hashtable

namespace Mcache

open Hashtable (Hashtable inUse emptyItem)

theorem unpack_pack_o (exp o : Nat) (hexp : exp < 2 ^ 32) (ho : o < 2 ^ 32) :
    (CacheItem.unpack (CacheItem.pack { expirationMs := exp, o := o })).o = o := by
  simp only [CacheItem.pack, CacheItem.unpack]
  have h32 : (2 : Nat) ^ 32 = 4294967296 := by norm_num
  rw [h32] at hexp ho ⊢
  omega

theorem cache_load_eq (c : Cache) (key : Nat) :
    (c.load key).2.1
      = (CacheItem.unpack
          (((c.shards.getD (key &&& c.shardsMask) defaultShard).load key key).2.1)).o ∧
    (c.load key).2.2.2
      = ((c.shards.getD (key &&& c.shardsMask) defaultShard).load key key).2.2.1 := by
  exact ⟨rfl, rfl⟩

end Mcache

/-! ### The claims -/

/-- C10: For every table state and every (key, hash): Hashtable.Load(key, hash)
leaves every slot of the data array unchanged, on hit and on miss alike; only
statistics counters may change (the chain-start swap optimization is absent). -/
theorem c10_load_preserves_slots (h : Hashtable.Hashtable) (key hash : Nat) :
    (h.load key hash).1.data = h.data ∧
    (h.load key hash).1.size = h.size ∧
    (h.load key hash).1.maxCollisions = h.maxCollisions ∧
    (h.load key hash).1.collisions = h.collisions := by
  simp only [Hashtable.Hashtable.load]
  split <;> simp

section PoolTheorems

open BlockPool

/-- C6 (counterexample): the pointer 101 lies inside the arena and is not
block-aligned, yet `Free(101)` returns true, leaves FreeBadAddress unchanged
and pushes 101 onto the free stack — the Go Free checks only the address
range, the alignment test exists only in Belongs. -/
theorem c6_free_accepts_unaligned :
    testPool.minAddr ≤ 101 ∧ 101 ≤ testPool.maxAddr ∧
    (101 - testPool.minAddr) % testPool.objectSize ≠ 0 ∧
    Pool.belongs testPool 101 = false ∧
    (testPoolAfterAlloc.free 101).2 = true ∧
    (testPoolAfterAlloc.free 101).1.statistics.freeBadAddress =
      testPoolAfterAlloc.statistics.freeBadAddress ∧
    (testPoolAfterAlloc.free 101).1.top = testPoolAfterAlloc.top + 1 := by
  decide

/-- C6 (amended): Free(p) returns false and increments FreeBadAddress exactly
when p is outside the arena address range (p < minAddr or p > maxAddr), and
then leaves the free stack untouched; any in-range pointer — aligned or not —
is accepted.  The alignment test `(p − minAddr) mod block_size = 0` is
performed only by Belongs. -/
theorem c6_free_rejects_iff_out_of_range (p : Pool) (ptr : Nat) :
    (ptr < p.minAddr ∨ p.maxAddr < ptr →
      (p.free ptr).2 = false ∧
      (p.free ptr).1.statistics.freeBadAddress = p.statistics.freeBadAddress + 1 ∧
      (p.free ptr).1.stack = p.stack ∧
      (p.free ptr).1.top = p.top) ∧
    (p.minAddr ≤ ptr → ptr ≤ p.maxAddr → (p.free ptr).2 = true) := by
  constructor
  · intro hout
    simp [Pool.free, hout]
  · intro h1 h2
    have hout : ¬(ptr < p.minAddr ∨ p.maxAddr < ptr) := by omega
    simp [Pool.free, hout]

/-- C6 witness: the amended theorem applied at the concrete pool and the
out-of-range pointer 99. -/
theorem c6_free_rejects_iff_out_of_range_witness :
    (testPool.free 99).2 = false ∧
    (testPool.free 99).1.statistics.freeBadAddress =
      testPool.statistics.freeBadAddress + 1 := by
  have h := (c6_free_rejects_iff_out_of_range testPool 99).1 (by decide)
  exact ⟨h.1, h.2.1⟩

/-- C9: on any pool state with at least one available block whose top-of-stack
address lies in the arena range (true of every reachable state), Alloc followed
by Free of the returned pointer restores top — hence Availability() — and
leaves the free stack literally unchanged, so the multiset of available block
addresses is restored. -/
theorem c9_alloc_free_roundtrip (p : Pool)
    (htop : 1 ≤ p.top) (hlen : p.top ≤ (p.stack.length : Int))
    (hmin : p.minAddr ≤ p.stack.getD (p.top - 1).toNat 0)
    (hmax : p.stack.getD (p.top - 1).toNat 0 ≤ p.maxAddr) :
    p.alloc.2.2 = true ∧
    (p.alloc.1.free p.alloc.2.1).2 = true ∧
    (p.alloc.1.free p.alloc.2.1).1.top = p.top ∧
    (p.alloc.1.free p.alloc.2.1).1.stack = p.stack ∧
    (p.alloc.1.free p.alloc.2.1).1.availability = p.availability := by
  have hpos : (0 : Int) ≤ p.top - 1 := by omega
  have hout : ¬(p.stack.getD (p.top - 1).toNat 0 < p.minAddr ∨
      p.maxAddr < p.stack.getD (p.top - 1).toNat 0) := by omega
  have hidx : (p.top - 1).toNat < p.stack.length := by omega
  simp only [Pool.alloc, Pool.free, Pool.availability]
  rw [if_pos hpos]
  dsimp only
  rw [if_neg hout]
  refine ⟨rfl, rfl, by dsimp only; omega, ?_, by dsimp only; omega⟩
  dsimp only
  exact set_getD_self p.stack (p.top - 1).toNat 0 hidx

/-- C9 witness: the round-trip theorem applied to the concrete two-block pool. -/
theorem c9_alloc_free_roundtrip_witness :
    testPool.alloc.2.2 = true ∧
    (testPool.alloc.1.free testPool.alloc.2.1).1.top = testPool.top ∧
    (testPool.alloc.1.free testPool.alloc.2.1).1.stack = testPool.stack := by
  have h := c9_alloc_free_roundtrip testPool (by decide) (by decide) (by decide) (by decide)
  exact ⟨h.1, h.2.2.1, h.2.2.2.1⟩

end PoolTheorems

namespace Hashtable

/-- C7 (amended): starting from the empty table, under sequences consisting of
Store operations alone, in which each key is always presented with the same
hash (`hashf key`, as `Cache.Store` does with `hashf = id`), no two in-use
slots ever carry the same key.  (With Remove in the sequence the claim fails:
see the counterexample.) -/
theorem c7_store_only_unique_keys (hashf : Nat → Nat) (ops : List (Nat × Nat)) (n maxC : Nat)
    (hpos : 0 < getSize n) :
    UniqueKeys (applyStores hashf ops (Hashtable.new n maxC)).data := by
  have hbase : (Hashtable.new n maxC).data.length
      = (Hashtable.new n maxC).size + (Hashtable.new n maxC).maxCollisions := by
    simp [Hashtable.new]
  have hwf0 : SlotsWF (Hashtable.new n maxC).size (Hashtable.new n maxC).maxCollisions
      hashf (Hashtable.new n maxC).data := by
    intro s hs hu
    rw [show (Hashtable.new n maxC).data = List.replicate (getSize n + maxC) emptyItem
        from rfl] at hu
    rw [getD_replicate _ _ _ _ (by simpa [Hashtable.new] using hs)] at hu
    rw [inUse_emptyItem] at hu
    exact absurd hu (by simp)
  have huniq0 : UniqueKeys (Hashtable.new n maxC).data := by
    intro s t hs ht hst hus hut
    rw [show (Hashtable.new n maxC).data = List.replicate (getSize n + maxC) emptyItem
        from rfl] at hus
    rw [getD_replicate _ _ _ _ (by simpa [Hashtable.new] using hs)] at hus
    rw [inUse_emptyItem] at hus
    exact absurd hus (by simp)
  exact (applyStores_wf hashf ops (Hashtable.new n maxC) hbase hpos hwf0 huniq0).2.2.2.2

/-- C7 (counterexample): Store(2), Store(4) (collides into the next slot),
Remove(2), Store(4) — the re-stored key 4 lands in the freed home slot while
its first copy is still in use one slot further: two in-use slots with the
same key_id, refuting the claimed invariant for Store/Remove sequences
(`find` probes across free slots but `Store` stops at the first one). -/
theorem c7_duplicate_key_after_remove :
    (testHt.store 2 2 10).2 = true ∧
    ((testHt.store 2 2 10).1.store 4 4 11).2 = true ∧
    (((testHt.store 2 2 10).1.store 4 4 11).1.remove 2 2).2.2 = true ∧
    ((((testHt.store 2 2 10).1.store 4 4 11).1.remove 2 2).1.store 4 4 12).2 = true ∧
    inUse (testHtDup.data.getD 0 emptyItem) = true ∧
    inUse (testHtDup.data.getD 1 emptyItem) = true ∧
    (testHtDup.data.getD 0 emptyItem).key = 4 ∧
    (testHtDup.data.getD 1 emptyItem).key = 4 := by
  decide

/-- C7 witness: the amended theorem applied to a concrete Store-only
sequence. -/
theorem c7_store_only_unique_keys_witness :
    ((applyStores (fun k => k) [(2, 10), (4, 11)] (Hashtable.new 2 4)).data.getD 0
        emptyItem).key
      ≠ ((applyStores (fun k => k) [(2, 10), (4, 11)] (Hashtable.new 2 4)).data.getD 1
        emptyItem).key := by
  have h := c7_store_only_unique_keys (fun k => k) [(2, 10), (4, 11)] 2 4 (by decide)
  exact h 0 1 (by decide) (by decide) (by decide) (by decide) (by decide)

end Hashtable

namespace Mcache

open Hashtable (Hashtable inUse emptyItem)

/-- C5: the state `testFifoWrapped` is reachable (capacity 1, array length 2,
head = 1, tail = 0, both in [0, 1]); it holds one element (pick succeeds), and
`(tail − head) mod (size + 1) = 1`, but `Len()` returns
`size − head + tail = 0` — one less than the claimed
`tail − head + size + 1 = 1` whenever head > tail.  The Go Len undercounts the
occupancy of every wrapped ring state by one. -/
theorem c5_len_wrap_off_by_one :
    testFifoWrapped.head = 1 ∧ testFifoWrapped.tail = 0 ∧
    testFifoWrapped.size = 1 ∧ testFifoWrapped.data.length = 2 ∧
    testFifoWrapped.pick.2 = true ∧
    ((testFifoWrapped.tail : Int) - (testFifoWrapped.head : Int)) %
        ((testFifoWrapped.size : Int) + 1) = 1 ∧
    (testFifoWrapped.tail : Int) - (testFifoWrapped.head : Int) +
        (testFifoWrapped.size : Int) + 1 = 1 ∧
    testFifoWrapped.len = 0 := by
  decide

/-- C1 (refuted, code bug): in the Go source `Cache.Store` discards the result
of `shard.table.Store` and returns the result of `c.fifo.add`.  On a cache of
ring capacity 2, after a successful Store of key 5, the shard hashtable rejects
a second Store of key 5 as a duplicate, yet `Cache.Store` returns true and
appends 5 to the expiration ring a second time — the claim requires false and
no ring append. -/
theorem c1_store_ignores_table_store_failure :
    (testCache.store 5 1 0).2 = true ∧
    ((testCacheWith5.shards.getD 0 defaultShard).store 5 5 0).2 = false ∧
    (testCacheWith5.store 5 2 0).2 = true ∧
    (testCacheWith5.store 5 2 0).1.fifo.tail = testCacheWith5.fifo.tail + 1 ∧
    (testCacheWith5.store 5 2 0).1.fifo.data.getD testCacheWith5.fifo.tail 0 = 5 := by
  decide

/-- C4 (refuted, code bug): the Go guard `if !expired { EvictForce += 1 }`
tests the result variable `expired`, which is still false at that point, so
EvictForce is incremented on every removal.  Here the head entry (expiration 10)
is naturally expired at now = 11 and force is false, yet EvictForce goes up by
one together with EvictExpired — the claim requires EvictForce unchanged. -/
theorem c4_evictforce_incremented_on_natural_expiry :
    testCacheWith5.statistics.evictForce = 0 ∧
    sub32 10 11 ≤ 0 ∧
    (testCacheWith5.evict 11 false).2.2 = true ∧
    (testCacheWith5.evict 11 false).1.statistics.evictForce = 1 ∧
    (testCacheWith5.evict 11 false).1.statistics.evictExpired = 1 := by
  decide

/-- C2: for a key absent from its shard (no in-use slot carries it), within
the collision budget (the shard-level Store performed by Cache.Store succeeds),
a successful `Store(k, o, now)` followed immediately by `Load(k)` returns the
stored payload `o` with found = true. -/
theorem c2_store_then_load (c : Cache) (key o now : Nat)
    (hidx : key &&& c.shardsMask < c.shards.length)
    (hlen : (c.shards.getD (key &&& c.shardsMask) defaultShard).data.length
        = (c.shards.getD (key &&& c.shardsMask) defaultShard).size
          + (c.shards.getD (key &&& c.shardsMask) defaultShard).maxCollisions)
    (hsize : 0 < (c.shards.getD (key &&& c.shardsMask) defaultShard).size)
    (habsent : ∀ j < (c.shards.getD (key &&& c.shardsMask) defaultShard).data.length,
        ¬(inUse ((c.shards.getD (key &&& c.shardsMask) defaultShard).data.getD j emptyItem)
            = true ∧
          ((c.shards.getD (key &&& c.shardsMask) defaultShard).data.getD j emptyItem).key
            = key))
    (ho : o < 2 ^ 32)
    (hok : ((c.shards.getD (key &&& c.shardsMask) defaultShard).store key key
        (CacheItem.pack { expirationMs := add32 now c.configuration.ttl, o := o % 2 ^ 32 })).2
        = true) :
    ((c.store key o now).1.load key).2.1 = o ∧
    ((c.store key o now).1.load key).2.2.2 = true := by
  have hload := Hashtable.store_then_load
    (c.shards.getD (key &&& c.shardsMask) defaultShard) key key
    (CacheItem.pack { expirationMs := add32 now c.configuration.ttl, o := o % 2 ^ 32 })
    hlen hsize hok
  have hshards : (c.store key o now).1.shards
      = c.shards.set (key &&& c.shardsMask)
        ((c.shards.getD (key &&& c.shardsMask) defaultShard).store key key
          (CacheItem.pack { expirationMs := add32 now c.configuration.ttl, o := o % 2 ^ 32 })).1
      := rfl
  have hmask : (c.store key o now).1.shardsMask = c.shardsMask := rfl
  have hshard : (c.store key o now).1.shards.getD
      (key &&& (c.store key o now).1.shardsMask) defaultShard
      = ((c.shards.getD (key &&& c.shardsMask) defaultShard).store key key
          (CacheItem.pack { expirationMs := add32 now c.configuration.ttl, o := o % 2 ^ 32 })).1 := by
    rw [hmask, hshards]
    exact getD_set_self _ _ _ _ hidx
  obtain ⟨hv, hokk⟩ := cache_load_eq (c.store key o now).1 key
  constructor
  · have hexp : add32 now c.configuration.ttl < 2 ^ 32 := Nat.mod_lt _ (by norm_num)
    have ho2 : o % 2 ^ 32 < 2 ^ 32 := Nat.mod_lt _ (by norm_num)
    rw [hv, hshard, hload.1,
      unpack_pack_o (add32 now c.configuration.ttl) (o % 2 ^ 32) hexp ho2]
    exact Nat.mod_eq_of_lt ho
  · rw [hokk, hshard, hload.2]

/-- C2 witness: the theorem applied to the concrete one-shard cache. -/
theorem c2_store_then_load_witness :
    ((testCache.store 5 1 0).1.load 5).2.1 = 1 ∧
    ((testCache.store 5 1 0).1.load 5).2.2.2 = true := by
  exact c2_store_then_load testCache 5 1 0 (by decide) (by decide) (by decide)
    (by decide) (by decide) (by decide)

/-- C3: for a stored entry at the ring head (pick succeeds and the shard Load
finds the key), `Evict(now, false)` reports expired = true exactly when the
signed 32-bit difference `expiration_ms - now` (computed by wrap-around
subtraction of the two bit patterns) is ≤ 0; with force = true Evict removes
the head entry unconditionally, in particular also when that predicate is
false. -/
theorem c3_evict_signed_expiry (c : Cache) (now key : Nat)
    (hpick : c.fifo.pick = (key, true))
    (hfound : ((c.shards.getD (key &&& c.shardsMask) defaultShard).load key key).2.2.1
      = true) :
    ((c.evict now false).2.2 = true ↔
      sub32 (((c.shards.getD (key &&& c.shardsMask) defaultShard).load key key).2.1 % 2 ^ 32)
        now ≤ 0) ∧
    (c.evict now true).2.2 = true := by
  obtain ⟨sh, iv, ok, ref, hload⟩ :
      ∃ sh iv ok ref, (c.shards.getD (key &&& c.shardsMask) defaultShard).load key key
        = (sh, iv, ok, ref) := ⟨_, _, _, _, rfl⟩
  rw [hload] at hfound ⊢
  have hok : ok = true := hfound
  subst hok
  constructor
  · simp only [Cache.evict, hpick, hload]
    rw [show (2 : Nat) ^ 32 = 4294967296 from by norm_num]
    by_cases hP : sub32 (iv % 4294967296) now ≤ 0
    · simp [hP, CacheItem.unpack]
    · simp [hP, CacheItem.unpack]
  · simp only [Cache.evict, hpick, hload]
    simp [CacheItem.unpack]

/-- C3 witness: the theorem applied to the concrete cache holding key 5 with
expiration 10, evicted at now = 5 (not yet expired). -/
theorem c3_evict_signed_expiry_witness :
    ((testCacheWith5.evict 5 false).2.2 = true ↔
      sub32 (((testCacheWith5.shards.getD (5 &&& testCacheWith5.shardsMask)
          defaultShard).load 5 5).2.1 % 2 ^ 32) 5 ≤ 0) ∧
    (testCacheWith5.evict 5 true).2.2 = true := by
  exact c3_evict_signed_expiry testCacheWith5 5 5 (by decide) (by decide)

/-- C8: when the ring head key is absent from its shard's hashtable (an
orphan entry, e.g. after EvictByRef), `Evict(now, force)` pops the ring head,
increments EvictLookupFailed by exactly one, returns (0, false), and leaves
every slot array of every shard unchanged. -/
theorem c8_orphan_head_evict (c : Cache) (now : Nat) (force : Bool) (key : Nat)
    (hpick : c.fifo.pick = (key, true))
    (habsent : ∀ j < (c.shards.getD (key &&& c.shardsMask) defaultShard).data.length,
        ¬(inUse ((c.shards.getD (key &&& c.shardsMask) defaultShard).data.getD j emptyItem)
            = true ∧
          ((c.shards.getD (key &&& c.shardsMask) defaultShard).data.getD j emptyItem).key
            = key)) :
    (c.evict now force).2.1 = 0 ∧
    (c.evict now force).2.2 = false ∧
    (c.evict now force).1.statistics.evictLookupFailed
      = c.statistics.evictLookupFailed + 1 ∧
    (c.evict now force).1.fifo.head = c.fifo.inc c.fifo.head ∧
    (c.evict now force).1.fifo.tail = c.fifo.tail ∧
    (c.evict now force).1.fifo.data = c.fifo.data ∧
    ∀ j, ((c.evict now force).1.shards.getD j defaultShard).data
        = (c.shards.getD j defaultShard).data := by
  have hne : c.fifo.head ≠ c.fifo.tail := by
    intro he
    simp [ItemFifo.pick, he] at hpick
  have hmiss := Hashtable.load_fails_of_absent
    (c.shards.getD (key &&& c.shardsMask) defaultShard) key key habsent
  have hok : ((c.shards.getD (key &&& c.shardsMask) defaultShard).load key key).2.2.1
      = false := by rw [hmiss]
  have hdata := Hashtable.load_data_eq
    (c.shards.getD (key &&& c.shardsMask) defaultShard) key key
  simp only [Cache.evict, hpick, hok]
  refine ⟨by trivial, by trivial, by trivial, ?_, ?_, ?_, ?_⟩
  · simp [ItemFifo.remove, hne]
  · simp [ItemFifo.remove, hne]
  · simp [ItemFifo.remove, hne]
  · intro j
    by_cases hj : j = key &&& c.shardsMask
    · subst hj
      by_cases hlt : key &&& c.shardsMask < c.shards.length
      · rw [getD_set_self _ _ _ _ hlt, hdata.1]
      · rw [List.set_eq_of_length_le (by omega)]
    · rw [getD_set_ne _ _ _ (fun he => hj he.symm)]

/-- C8 witness: the theorem applied to the concrete cache whose only entry
was removed by EvictByRef, leaving the ring head orphaned. -/
theorem c8_orphan_head_evict_witness :
    (testCacheOrphan.evict 0 false).2.2 = false ∧
    (testCacheOrphan.evict 0 false).1.statistics.evictLookupFailed
      = testCacheOrphan.statistics.evictLookupFailed + 1 := by
  have h := c8_orphan_head_evict testCacheOrphan 0 false 5 (by decide) (by decide)
  exact ⟨h.2.1, h.2.2.1⟩

end Mcache
